import Mathlib

/-!
# asoiafnotif: a shallow embedding of `main.go`

The program fetches a forum page, scrapes a notification count from it,
compares the count with the one stored in a state file, rewrites the file
and sends an email when the count went up.

The embedding follows `main.go` function by function. Everything the
program obtains from outside (HTTP transport, HTML and XML parsers, the
file system, the SMTP exchange) is a field of `World`. The functions of
the Go standard library that decide the arithmetic (`strconv.Atoi`,
`strconv.Itoa`) are written out after the library, value and error side by
side as Go returns them. Go `int` is taken to be 64 bits wide. Log lines
other than `log.Fatal` and the five second sleeps are not observable in the
embedding.
-/

namespace Asoiafnotif

/-! ## Go values -/

/-- The two sentinel errors of `strconv`: `ErrSyntax` (here `invalid`) and
`ErrRange` (here `range`). -/
inductive ErrKind
  | invalid
  | range
  deriving DecidableEq, Repr

/-- The `strconv.NumError` record. -/
structure NumError where
  Func : String
  Num : String
  Err : ErrKind
  deriving DecidableEq, Repr

/-- A Go `error` value: either an error carrying a plain text (built by
`fmt.Errorf` or handed over by a collaborator) or a `*strconv.NumError`. -/
inductive GoError
  | text (msg : String)
  | num (e : NumError)
  deriving DecidableEq, Repr

/-- The text of `strconv.ErrSyntax` and `strconv.ErrRange`. -/
def ErrKind.Error : ErrKind → String
  | ErrKind.invalid => "invalid syntax"
  | ErrKind.range => "value out of range"

/-- The method `err.Error()`. The quoting function `strconv.Quote` used by
`NumError.Error` is a parameter. -/
def GoError.Error (quote : String → String) : GoError → String
  | GoError.text msg => msg
  | GoError.num e =>
    "strconv." ++ e.Func ++ ": parsing " ++ quote e.Num ++ ": " ++ e.Err.Error

/-! ## Machine integers -/

/-- Smallest value of a 64-bit `int`. -/
def minInt : Int := -(2 ^ 63)

/-- Largest value of a 64-bit `int`. -/
def maxInt : Int := 2 ^ 63 - 1

/-- Two's complement wrap-around of a mathematical integer into `int`. -/
def wrapInt (x : Int) : Int := (x + 2 ^ 63) % 2 ^ 64 - 2 ^ 63

/-- The conversion `int64(un)` of a `uint64`. -/
def toInt64 (un : Nat) : Int := wrapInt (un : Int)

/-! ## strconv -/

/-- A byte between `0` and `9`. -/
def isDigit (c : Char) : Bool := decide (48 ≤ c.toNat) && decide (c.toNat ≤ 57)

/-- The constant `cutoff` of `ParseUint` for base 10: `maxUint64/10 + 1`. -/
def uintCutoff : Nat := (2 ^ 64 - 1) / 10 + 1

/-- The constant `maxVal` of `ParseUint` for 64 bits. -/
def uintMax : Nat := 2 ^ 64 - 1

/-- The digit loop of `strconv.ParseUint(s, 10, 64)`; `n` is the `uint64`
accumulator. A byte that is no decimal digit ends the loop with `ErrSyntax`
and value 0, an overflow ends it at once with `ErrRange` and `maxVal`. The
string is read character by character: a character outside ASCII stands for
bytes of value 128 and more, none of which is a digit or a sign, so it ends
the loop like the first of its bytes does. -/
def parseUintLoop : List Char → Nat → Nat × Option ErrKind
  | [], n => (n, none)
  | c :: cs, n =>
    if isDigit c then
      if n ≥ uintCutoff then (uintMax, some ErrKind.range)
      else
        let n10 := n * 10
        let n1 := (n10 + (c.toNat - 48)) % 2 ^ 64
        if n1 < n10 ∨ n1 > uintMax then (uintMax, some ErrKind.range)
        else parseUintLoop cs n1
    else (0, some ErrKind.invalid)

/-- The function `strconv.ParseUint(s, 10, 64)`: an empty string is a
syntax failure. -/
def ParseUint (s : List Char) : Nat × Option ErrKind :=
  if s = [] then (0, some ErrKind.invalid) else parseUintLoop s 0

/-- The function `strconv.ParseInt(s, 10, 0)` on a 64-bit target: value and
error kind. One leading sign is picked off, the rest goes through
`ParseUint`; a syntax failure gives 0, a magnitude beyond the range gives
the nearest bound together with `ErrRange`. -/
def ParseInt (s : List Char) : Int × Option ErrKind :=
  match s with
  | [] => (0, some ErrKind.invalid)
  | c :: rest =>
    let neg : Bool := c = '-'
    let body := if c = '+' ∨ c = '-' then rest else s
    match ParseUint body with
    | (_, some ErrKind.invalid) => (0, some ErrKind.invalid)
    | (un, _) =>
      let cutoff : Nat := 2 ^ 63
      if neg = false ∧ un ≥ cutoff then ((cutoff : Int) - 1, some ErrKind.range)
      else if neg = true ∧ un > cutoff then (-(cutoff : Int), some ErrKind.range)
      else
        let n := toInt64 un
        (if neg then wrapInt (-n) else n, none)

/-- The function `strconv.Atoi`: `ParseInt(s, 10, 0)` converted to `int`,
with the error wrapped in a `NumError`. The value is returned next to the
error, as in Go. -/
def Atoi (s : String) : Int × Option GoError :=
  match ParseInt s.data with
  | (v, none) => (v, none)
  | (v, some k) => (v, some (GoError.num ⟨"Atoi", s, k⟩))

/-- The function `strconv.Itoa`, also the verb `%d` of `fmt`. -/
def Itoa (i : Int) : String :=
  if i < 0 then "-" ++ Nat.repr i.natAbs else Nat.repr i.natAbs

/-! ## HTTP and the retrying transport -/

/-- An `http.Cookie` with the two fields the program sets. -/
structure Cookie where
  Name : String
  Value : String
  deriving DecidableEq, Repr

/-- The `http.Request` built by `getNotifications`. -/
structure Request where
  Method : String
  URL : String
  Cookies : List Cookie
  deriving DecidableEq, Repr

/-- The part of an `http.Response` the program looks at. -/
structure Response where
  StatusCode : Int
  Body : String
  deriving DecidableEq, Repr

/-- The pair `(resp, err)` returned by one call of `client.Do`: without an
error there is a response; with an error the response is usually nil. -/
inductive DoResult
  | ok (resp : Response)
  | failed (resp : Option Response) (err : GoError)
  deriving DecidableEq, Repr

/-- The `resp` component of the pair. -/
def DoResult.resp : DoResult → Option Response
  | DoResult.ok r => some r
  | DoResult.failed r _ => r

/-- The `err` component of the pair. -/
def DoResult.err : DoResult → Option GoError
  | DoResult.ok _ => none
  | DoResult.failed _ e => some e

/-- The test of the last `else` branch in `retryHTTPDo`: no transport error
and status code 200. -/
def DoResult.good : DoResult → Bool
  | DoResult.ok r => decide (r.StatusCode = 200)
  | DoResult.failed _ _ => false

/-- Outcome of `retryHTTPDo`: the named results `(resp, err)` as one
`DoResult`, and how many times `client.Do` was called. -/
structure RetryResult where
  last : DoResult
  attempts : Nat
  deriving DecidableEq, Repr

/-- The loop `for i := 0; i < 5; i++` of `retryHTTPDo` from iteration `i`
on, with `k` further iterations allowed after this one (`i + k = 4`). Each
iteration assigns `resp, err = client.Do(req)`; a good attempt returns at
once, any other is logged, sleeps and goes on. In the last iteration both
ways end the same: a good attempt returns inside the loop, another one
leaves the loop, and the bare `return` behind it hands back the named
results, which are those just assigned. `attempt i` is the outcome of the
call number `i`. -/
def retryHTTPDoFrom (attempt : Nat → DoResult) : Nat → Nat → RetryResult
  | 0, i => ⟨attempt i, i + 1⟩
  | k + 1, i =>
    if (attempt i).good then ⟨attempt i, i + 1⟩
    else retryHTTPDoFrom attempt k (i + 1)

/-- The function `retryHTTPDo`: five iterations, numbered 0 to 4. -/
def retryHTTPDo (attempt : Nat → DoResult) : RetryResult :=
  retryHTTPDoFrom attempt 4 0

/-! ## The parsed page and the two path queries -/

/-- The tree returned by `html.Parse`, known through what `html.Render`
writes for it. -/
structure HtmlNode where
  rendered : String
  deriving DecidableEq, Repr

/-- A node of the tree returned by `xmlpath.ParseHTML`: its `class`
attribute, its `data-notificationtype` attribute (absent attributes are
`none`) and its string value `Node.String()`. -/
structure XmlNode where
  cls : Option String
  notificationtype : Option String
  text : String
  deriving DecidableEq, Repr

/-- The parsed document: its nodes in document order. -/
abbrev XmlRoot := List XmlNode

/-- The test `strings.Contains(s, sub)` on byte lists. -/
def listContains : List Char → List Char → Bool
  | [], sub => sub.isEmpty
  | c :: cs, sub => sub.isPrefixOf (c :: cs) || listContains cs sub

/-- The predicate `contains(@class, ipsNotificationCount)`: false when the
node has no `class` attribute. -/
def isMarker (n : XmlNode) : Bool :=
  match n.cls with
  | none => false
  | some c => listContains c.data "ipsNotificationCount".data

/-- The predicate of the first query: marker class, and
`data-notificationtype` equal to `total`. -/
def isTotal (n : XmlNode) : Bool :=
  isMarker n && decide (n.notificationtype = some "total")

/-- The call `path.String(xmlRoot)`: the string value of the first node
that satisfies the first query, if there is one. -/
def pathString (xmlRoot : XmlRoot) : Option String :=
  (xmlRoot.find? isTotal).map XmlNode.text

/-- The nodes visited by `paths.Iter(xmlRoot)`: the string values of all
marker nodes, in document order. -/
def pathsIter (xmlRoot : XmlRoot) : List String :=
  (xmlRoot.filter isMarker).map XmlNode.text

/-- The loop `for iter.Next()` of `getNotifications`: every text goes
through `strconv.Atoi`, the error is dropped, the value is added to the
running `int` total. -/
def sumLoop : List String → Int → Int
  | [], notifications => notifications
  | contents :: rest, notifications =>
    let this := (Atoi contents).1
    sumLoop rest (wrapInt (notifications + this))

/-- Lines 144 to 156 of `main.go`: the extraction from the parsed page. -/
def extract (xmlRoot : XmlRoot) : Int × Option GoError :=
  match pathString xmlRoot with
  | some contents => Atoi contents
  | none => (sumLoop (pathsIter xmlRoot) 0, none)

/-! ## The outside world -/

/-- What `ioutil.ReadFile` finds at the state file path: either the whole
content, or an error together with the bytes read before it. -/
inductive FileState
  | content (data : String)
  | unreadable (data : String) (err : GoError)
  deriving DecidableEq, Repr

/-- The arguments of one `smtp.SendMail` call. -/
structure SendMailArgs where
  addr : String
  authUser : String
  authPassword : String
  authHost : String
  sender : String
  rcpts : List String
  msg : String
  deriving DecidableEq, Repr

/-- Everything the program obtains from outside during one run. -/
structure World where
  /-- Outcome of the call number `i` of `client.Do` with the given request. -/
  Do : Request → Nat → DoResult
  /-- The function `html.Parse` applied to a response body. -/
  Parse : String → Except GoError HtmlNode
  /-- The function `xmlpath.ParseHTML` applied to the rendered tree. -/
  ParseHTML : String → Except GoError XmlRoot
  /-- The state file when the run starts. -/
  file : FileState
  /-- Outcome of `ioutil.WriteFile`: `none` when the write succeeds, else
  the error and what is left at the path. -/
  writeFailure : Option (GoError × FileState)
  /-- Outcome of `smtp.SendMail`: `none` when the mail is accepted. -/
  SendMail : SendMailArgs → Option GoError
  /-- The function `strconv.Quote`. -/
  Quote : String → String

/-- The call `ioutil.ReadFile(*lastFile)`: bytes and error. -/
def ReadFile (fs : FileState) : String × Option GoError :=
  match fs with
  | FileState.content data => (data, none)
  | FileState.unreadable data err => (data, some err)

/-- The call `ioutil.WriteFile(*lastFile, data, 0700)`: the state file
afterwards. -/
def WriteFile (w : World) (data : String) : FileState :=
  match w.writeFailure with
  | none => FileState.content data
  | some (_, left) => left

/-! ## getNotifications -/

/-- The request of `getNotifications`: a GET with the four cookies. -/
def buildRequest (ipssessionfront memberid cfduid passhash : String) : Request :=
  { Method := "GET"
    URL := "https://asoiaf.westeros.org/index.php"
    Cookies := [⟨"ips4_IPSSessionFront", ipssessionfront⟩, ⟨"ips4_member_id", memberid⟩,
      ⟨"__cfduid", cfduid⟩, ⟨"ips4_pass_hash", passhash⟩] }

/-- The function `getNotifications`: the pair `(int, error)` it returns. -/
def getNotifications (w : World) (ipssessionfront memberid cfduid passhash : String) :
    Int × Option GoError :=
  let req := buildRequest ipssessionfront memberid cfduid passhash
  match (retryHTTPDo (w.Do req)).last with
  | DoResult.failed _ err =>
    (0, some (GoError.text ("error making HTTP request: " ++ err.Error w.Quote)))
  | DoResult.ok resp =>
    if resp.StatusCode ≠ 200 then
      (0, some (GoError.text ("HTTP response code " ++ Itoa resp.StatusCode)))
    else
      match w.Parse resp.Body with
      | Except.error err =>
        (0, some (GoError.text ("error parsing HTML: " ++ err.Error w.Quote)))
      | Except.ok root =>
        match w.ParseHTML root.rendered with
        | Except.error err =>
          (0, some (GoError.text ("error parsing fixed HTML: " ++ err.Error w.Quote)))
        | Except.ok xmlRoot => extract xmlRoot

/-! ## The emailer -/

/-- The struct `emailer`; the field `from` is called `sender` here, and the
parameter `to` of its method is called `rcpt`. -/
structure emailer where
  sender : String
  smtpServer : String
  smtpPassword : String
  smtpPort : Int
  deriving DecidableEq, Repr

/-- The arguments `emailer.email` passes to `smtp.SendMail`. -/
def emailer.sendMailArgs (e : emailer) (rcpt subject body : String) : SendMailArgs :=
  let port := if e.smtpPort = 0 then 25 else e.smtpPort
  { addr := e.smtpServer ++ ":" ++ Itoa port
    authUser := e.sender
    authPassword := e.smtpPassword
    authHost := e.smtpServer
    sender := e.sender
    rcpts := [rcpt]
    msg := "To: " ++ rcpt ++ "\r\n" ++ "From: ASOIAF notifications <" ++ e.sender ++ ">" ++ "\r\n"
      ++ "Subject: " ++ subject ++ "\r\n\r\n" ++ body ++ "\r\n" }

/-- The method `emailer.email`: the error of the SMTP exchange, if any. -/
def emailer.email (e : emailer) (w : World) (rcpt subject body : String) : Option GoError :=
  w.SendMail (e.sendMailArgs rcpt subject body)

/-! ## checkAndNotify and main -/

/-- What a run does that can be seen from outside, in order. -/
inductive Event
  | email (rcpt subject body : String)
  | readFile
  | writeFile (data : String)
  | fatal (msg : String)
  deriving DecidableEq, Repr

/-- The result of a run: the events in order, the state file afterwards and
the exit status (1 after `log.Fatal`, else 0). -/
structure Run where
  trace : List Event
  file : FileState
  exit : Nat
  deriving DecidableEq, Repr

/-- The argument of `log.Fatal(err)` as printed: `<nil>` for a nil error. -/
def fatalText (quote : String → String) : Option GoError → String
  | none => "<nil>"
  | some err => err.Error quote

/-- The prior count of lines 80 to 85: the content of the state file through
`strconv.Atoi`, and 0 when the read or the conversion gave an error. -/
def lastNotifications (fs : FileState) : Int :=
  let (bs, err) := ReadFile fs
  let (last, convErr) := Atoi bs
  if err ≠ none ∨ convErr ≠ none then 0 else last

/-- The body of the notification mail, the `fmt.Sprintf` of line 97. -/
def notifyBody (notifications : Int) : String :=
  "You have " ++ Itoa notifications
    ++ " new notification(s)! Go check https://asoiaf.westeros.org/"

/-- Lines 80 to 100 of `checkAndNotify`, entered with the count
`notifications` and the events so far. -/
def compareAndNotify (w : World) (notifyEmail : String) (e : emailer) (notifications : Int)
    (sofar : List Event) : Run :=
  let err := (ReadFile w.file).2
  let last := lastNotifications w.file
  let data := Itoa notifications
  let file := WriteFile w data
  let trace := sofar ++ [Event.readFile, Event.writeFile data]
  if notifications ≤ last then
    { trace := trace, file := file, exit := 0 }
  else if notifications > 0 then
    let subject := "ASOIAF notifications"
    let body := notifyBody notifications
    match e.email w notifyEmail subject body with
    | some _ =>
      { trace := trace ++ [Event.email notifyEmail subject body, Event.fatal (fatalText w.Quote err)]
        file := file, exit := 1 }
    | none =>
      { trace := trace ++ [Event.email notifyEmail subject body], file := file, exit := 0 }
  else
    { trace := trace, file := file, exit := 0 }

/-- The function `checkAndNotify`. -/
def checkAndNotify (w : World) (ipssessionfront memberid cfduid passhash notifyEmail : String)
    (e : emailer) : Run :=
  match getNotifications w ipssessionfront memberid cfduid passhash with
  | (notifications, some err) =>
    let subject := "Error scraping notifications"
    let body := err.Error w.Quote
    match e.email w notifyEmail subject body with
    | some _ =>
      { trace := [Event.email notifyEmail subject body, Event.fatal (err.Error w.Quote)]
        file := w.file, exit := 1 }
    | none => compareAndNotify w notifyEmail e notifications [Event.email notifyEmail subject body]
  | (notifications, none) => compareAndNotify w notifyEmail e notifications []

/-- The package-level flags. -/
structure Flags where
  verbose : Bool
  lastFile : String
  ipssessionfront : String
  memberid : String
  cfduid : String
  passhash : String
  notifyEmail : String
  smtpServer : String
  smtpUser : String
  smtpPassword : String
  deriving DecidableEq, Repr

/-- A run ended by `log.Fatal(msg)` before anything else happened. -/
def fatalRun (w : World) (msg : String) : Run :=
  { trace := [Event.fatal msg], file := w.file, exit := 1 }

/-- The function `main` after `flag.Parse()`. -/
def main (w : World) (f : Flags) : Run :=
  if f.lastFile = "" then fatalRun w "Need to specify --file"
  else if f.smtpServer = "" then fatalRun w "Need to specify --smtp_server"
  else if f.smtpUser = "" then fatalRun w "Need to specify --smtp_user"
  else if f.smtpPassword = "" then fatalRun w "Need to specify --smtp_password"
  else if f.ipssessionfront = "" then fatalRun w "Need to specify --ipsessionfront"
  else if f.memberid = "" then fatalRun w "Need to specify --memberid"
  else if f.cfduid = "" then fatalRun w "Need to specify --cfduid"
  else if f.passhash = "" then fatalRun w "Need to specify --passhash"
  else if f.notifyEmail = "" then fatalRun w "Need to specify --notify_email"
  else
    let e : emailer :=
      { sender := f.smtpUser, smtpServer := f.smtpServer, smtpPassword := f.smtpPassword,
        smtpPort := 0 }
    checkAndNotify w f.ipssessionfront f.memberid f.cfduid f.passhash f.notifyEmail e

/-- The names under which the nine required flags are registered with
`flag.String`, in the order `main` tests them. -/
def registeredNames : List String :=
  ["file", "smtp_server", "smtp_user", "smtp_password", "ipssessionfront", "memberid",
    "cfduid", "passhash", "notify_email"]

/-- The values of the nine required flags, in the order of `registeredNames`. -/
def Flags.required (f : Flags) : List String :=
  [f.lastFile, f.smtpServer, f.smtpUser, f.smtpPassword, f.ipssessionfront, f.memberid,
    f.cfduid, f.passhash, f.notifyEmail]


/-! ## Reference notions used in the statements -/

/-- Value of a digit string read from the accumulator `n` on. -/
def decimalFrom (n : Nat) (ds : List Char) : Nat :=
  ds.foldl (fun acc c => acc * 10 + (c.toNat - 48)) n

/-- Value of a string of decimal digits. -/
def decimalValue (ds : List Char) : Nat := decimalFrom 0 ds


/-- The contribution the specification gives a marker text on the summation
path: its integer value when it parses, 0 when it does not. -/
def specContribution (t : String) : Int :=
  if (Atoi t).2 = none then (Atoi t).1 else 0

/-- The count the specification gives a list of marker texts. -/
def specSum (ts : List String) : Int := (ts.map specContribution).sum

/-- The text is one for which `strconv.Atoi` reports `ErrRange`. -/
def outOfRange (t : String) : Prop := (ParseInt t.data).2 = some ErrKind.range

/-- The texts `getNotifications` reads on a page: the text of the `total`
node when there is one, else the texts of all marker nodes. -/
def consulted (xmlRoot : XmlRoot) : List String :=
  match pathString xmlRoot with
  | some t => [t]
  | none => pathsIter xmlRoot

/-- The registered name of the first required flag whose value is empty, in
the order `main` tests them. -/
def firstMissing : List (String × String) → Option String
  | [] => none
  | (name, value) :: rest => if value = "" then some name else firstMissing rest

/-! ## Concrete inputs -/

/-- The transport used in the witness: call number 4 answers 200, every
other call fails with a transport error. -/
def fifthGood (i : Nat) : DoResult :=
  if i = 4 then DoResult.ok ⟨200, "page"⟩ else DoResult.failed none (GoError.text "timeout")

/-- A world that answers the first request with status 200 and whose
parsers return the page `xmlRoot`. The state file is `file`, writing it
succeeds, and `send` decides every SMTP exchange. -/
def served (xmlRoot : XmlRoot) (file : FileState) (send : SendMailArgs → Option GoError) :
    World :=
  { Do := fun _ _ => DoResult.ok ⟨200, "<html></html>"⟩
    Parse := fun body => Except.ok ⟨body⟩
    ParseHTML := fun _ => Except.ok xmlRoot
    file := file
    writeFailure := none
    SendMail := send
    Quote := fun s => "\"" ++ s ++ "\"" }

/-- A marker node without the `total` type tag. -/
def marker (t : String) : XmlNode :=
  { cls := some "ipsNotificationCount", notificationtype := none, text := t }

/-- A marker node with the `total` type tag. -/
def totalNode (t : String) : XmlNode :=
  { cls := some "ipsNotificationCount ipsHide", notificationtype := some "total", text := t }

/-- An SMTP relay that accepts every mail. -/
def accepting : SendMailArgs → Option GoError := fun _ => none

/-- An SMTP relay that refuses every mail. -/
def refusing : SendMailArgs → Option GoError := fun _ => some (GoError.text "connection refused")

/-- The emailer used in the examples. -/
def exampleEmailer : emailer :=
  { sender := "bot@example.org", smtpServer := "smtp.example.org", smtpPassword := "pw",
    smtpPort := 0 }

/-- A page whose `total` node shows a number one beyond the largest `int`;
the state file holds 0 and the relay accepts every mail. -/
def overflowWorld : World :=
  served [totalNode "9223372036854775808"] (FileState.content "0") accepting

/-- All required flags given, except that `-ipssessionfront` is empty. -/
def flagsWithoutSession : Flags :=
  { verbose := false, lastFile := "/var/tmp/last", ipssessionfront := "", memberid := "42",
    cfduid := "d0", passhash := "ab", notifyEmail := "me@example.org",
    smtpServer := "smtp.example.org", smtpUser := "bot@example.org", smtpPassword := "pw" }


/-! ## Facts about the integer conversions -/

theorem wrapInt_range (x : Int) : minInt ≤ wrapInt x ∧ wrapInt x ≤ maxInt := by
  simp only [wrapInt, minInt, maxInt]
  omega

theorem wrapInt_of_range (x : Int) (h1 : minInt ≤ x) (h2 : x ≤ maxInt) : wrapInt x = x := by
  simp only [wrapInt, minInt, maxInt] at *
  omega

theorem wrapInt_add_wrapInt (a b : Int) : wrapInt (wrapInt a + b) = wrapInt (a + b) := by
  simp only [wrapInt]
  omega

theorem toInt64_of_lt (un : Nat) (h : un < 2 ^ 63) : toInt64 un = (un : Int) := by
  simp only [toInt64, wrapInt]
  omega

/-- The digit loop reports `ErrRange` only together with `maxVal`, and
`ErrSyntax` only together with 0. -/
theorem parseUintLoop_err (cs : List Char) (n : Nat) :
    ((parseUintLoop cs n).2 = some ErrKind.range → (parseUintLoop cs n).1 = uintMax) ∧
    ((parseUintLoop cs n).2 = some ErrKind.invalid → (parseUintLoop cs n).1 = 0) := by
  induction cs generalizing n with
  | nil => simp [parseUintLoop]
  | cons c cs ih =>
    unfold parseUintLoop
    by_cases hd : isDigit c = true
    · rw [if_pos hd]
      by_cases hc : n ≥ uintCutoff
      · rw [if_pos hc]; simp
      · rw [if_neg hc]
        simp only []
        split_ifs with h
        · simp
        · exact ih _
    · rw [if_neg hd]; simp

/-- A byte that is no digit makes the digit loop fail. -/
theorem parseUintLoop_nondigit (cs : List Char) (n : Nat)
    (h : ∃ c, c ∈ cs ∧ isDigit c = false) : (parseUintLoop cs n).2 ≠ none := by
  induction cs generalizing n with
  | nil => simp at h
  | cons c cs ih =>
    unfold parseUintLoop
    by_cases hd : isDigit c = true
    · rw [if_pos hd]
      by_cases hc : n ≥ uintCutoff
      · rw [if_pos hc]; simp
      · rw [if_neg hc]
        simp only []
        split_ifs with h1
        · simp
        · apply ih
          obtain ⟨x, hx, hxd⟩ := h
          rcases List.mem_cons.mp hx with rfl | hx
          · rw [hd] at hxd; exact absurd hxd (by decide)
          · exact ⟨x, hx, hxd⟩
    · rw [if_neg hd]; simp

theorem le_decimalFrom (n : Nat) (ds : List Char) : n ≤ decimalFrom n ds := by
  induction ds generalizing n with
  | nil => simp [decimalFrom]
  | cons c cs ih =>
    have := ih (n * 10 + (c.toNat - 48))
    simp only [decimalFrom, List.foldl_cons] at this ⊢
    omega

/-- On digits only, the digit loop computes the decimal value, and reports
`ErrRange` exactly when that value does not fit 64 bits. -/
theorem parseUintLoop_digits (ds : List Char) (n : Nat) (hn : n < 2 ^ 64)
    (hds : ∀ c, c ∈ ds → isDigit c = true) :
    parseUintLoop ds n =
      if decimalFrom n ds < 2 ^ 64 then (decimalFrom n ds, none)
      else (uintMax, some ErrKind.range) := by
  induction ds generalizing n with
  | nil =>
    simp only [parseUintLoop, decimalFrom, List.foldl_nil]
    rw [if_pos hn]
  | cons c cs ih =>
    have hc : isDigit c = true := hds c (List.mem_cons_self _ _)
    have hcs : ∀ x, x ∈ cs → isDigit x = true := fun x hx => hds x (List.mem_cons_of_mem _ hx)
    have hd : c.toNat - 48 ≤ 9 := by
      simp only [isDigit, Bool.and_eq_true, decide_eq_true_eq] at hc
      omega
    have hmono := le_decimalFrom (n * 10 + (c.toNat - 48)) cs
    have hstep : decimalFrom n (c :: cs) = decimalFrom (n * 10 + (c.toNat - 48)) cs := by
      simp [decimalFrom]
    unfold parseUintLoop
    rw [if_pos hc, hstep]
    by_cases hcut : n ≥ uintCutoff
    · rw [if_pos hcut]
      simp only [uintCutoff] at hcut
      rw [if_neg (by omega)]
    · rw [if_neg hcut]
      simp only [uintCutoff, uintMax] at hcut ⊢
      by_cases hov : n * 10 + (c.toNat - 48) < 2 ^ 64
      · have hmod : (n * 10 + (c.toNat - 48)) % 2 ^ 64 = n * 10 + (c.toNat - 48) :=
          Nat.mod_eq_of_lt hov
        rw [hmod, if_neg (by omega)]
        exact ih _ hov hcs
      · rw [if_pos (by omega), if_neg (by omega)]

/-- How `ParseInt` continues after `ParseUint` gave `(un, err)` for the part
behind the sign. -/
theorem ParseInt_cons (c : Char) (rest : List Char) :
    ParseInt (c :: rest) =
      match ParseUint (if c = '+' ∨ c = '-' then rest else c :: rest) with
      | (_, some ErrKind.invalid) => (0, some ErrKind.invalid)
      | (un, _) =>
        if decide (c = '-') = false ∧ un ≥ 2 ^ 63 then (((2 ^ 63 : Nat) : Int) - 1, some ErrKind.range)
        else if decide (c = '-') = true ∧ un > 2 ^ 63 then (-((2 ^ 63 : Nat) : Int), some ErrKind.range)
        else (if decide (c = '-') then wrapInt (-(toInt64 un)) else toInt64 un, none) := by
  rfl

theorem ParseInt_range (s : List Char) :
    minInt ≤ (ParseInt s).1 ∧ (ParseInt s).1 ≤ maxInt := by
  cases s with
  | nil => simp [ParseInt, minInt, maxInt]
  | cons c rest =>
    rw [ParseInt_cons]
    split
    · simp [minInt, maxInt]
    · split_ifs
      · simp [minInt, maxInt]
      · simp [minInt, maxInt]
      · exact wrapInt_range _
      · exact wrapInt_range _

theorem ParseInt_invalid (s : List Char) (h : (ParseInt s).2 = some ErrKind.invalid) :
    (ParseInt s).1 = 0 := by
  cases s with
  | nil => simp [ParseInt]
  | cons c rest =>
    rw [ParseInt_cons] at h ⊢
    split at h
    · rfl
    · split_ifs at h <;> simp at h

theorem ParseInt_nonneg (s : List Char) (h : s.head? ≠ some '-') : 0 ≤ (ParseInt s).1 := by
  cases s with
  | nil => simp [ParseInt]
  | cons c rest =>
    have hc : c ≠ '-' := by simpa using h
    rw [ParseInt_cons]
    split
    · simp
    · rename_i un _ _ _
      have hneg : decide (c = '-') = false := by simp [hc]
      rw [hneg]
      by_cases hu : un ≥ 2 ^ 63
      · rw [if_pos ⟨rfl, hu⟩]; simp
      · rw [if_neg (fun h => hu h.2), if_neg (fun h => Bool.noConfusion h.1)]
        simp only [Bool.false_eq_true, if_false]
        rw [toInt64_of_lt un (by omega)]
        exact Int.natCast_nonneg _

theorem ParseInt_range_value (s : List Char) (h : (ParseInt s).2 = some ErrKind.range) :
    (ParseInt s).1 = maxInt ∨ (ParseInt s).1 = minInt := by
  cases s with
  | nil => simp [ParseInt] at h
  | cons c rest =>
    rw [ParseInt_cons] at h ⊢
    split at h
    · simp at h
    · split_ifs at h ⊢
      · left; simp [maxInt]
      · right; simp [minInt]

theorem isDigit_not_sign (c : Char) (h : isDigit c = true) : c ≠ '+' ∧ c ≠ '-' := by
  constructor <;> (rintro rfl; revert h; decide)

theorem ParseUint_digits (ds : List Char) (hne : ds ≠ [])
    (hds : ∀ c, c ∈ ds → isDigit c = true) :
    ParseUint ds =
      if decimalValue ds < 2 ^ 64 then (decimalValue ds, none)
      else (uintMax, some ErrKind.range) := by
  unfold ParseUint
  rw [if_neg hne]
  exact parseUintLoop_digits ds 0 (by norm_num) hds

/-- What `ParseInt` does once `ParseUint` has read the magnitude `v` of a
digit string behind the sign. -/
theorem ParseInt_of_digits (c : Char) (rest body : List Char)
    (hbody : (if c = '+' ∨ c = '-' then rest else c :: rest) = body)
    (hne : body ≠ []) (hds : ∀ x, x ∈ body → isDigit x = true) :
    ParseInt (c :: rest) =
      if c = '-' then
        (if decimalValue body ≤ 2 ^ 63 then (-(decimalValue body : Int), none)
         else (minInt, some ErrKind.range))
      else
        (if decimalValue body < 2 ^ 63 then ((decimalValue body : Int), none)
         else (maxInt, some ErrKind.range)) := by
  rw [ParseInt_cons, hbody, ParseUint_digits body hne hds]
  by_cases h64 : decimalValue body < 2 ^ 64
  · rw [if_pos h64]
    simp only []
    by_cases hc : c = '-'
    · simp only [hc, decide_True, Bool.true_eq_false, false_and, if_false, true_and, if_true]
      by_cases hv : decimalValue body ≤ 2 ^ 63
      · rw [if_neg (by omega), if_pos hv]
        simp only [toInt64, wrapInt, Prod.mk.injEq, and_true]
        omega
      · rw [if_pos (by omega), if_neg hv]
        simp [minInt]
    · simp only [hc, decide_False, Bool.false_eq_true, false_and, if_false, true_and]
      by_cases hv : decimalValue body < 2 ^ 63
      · rw [if_neg (by omega), if_pos hv, toInt64_of_lt _ hv]
      · rw [if_pos (by omega), if_neg hv]
        simp [maxInt]
  · rw [if_neg h64]
    simp only [uintMax]
    by_cases hc : c = '-'
    · simp only [hc, decide_True, Bool.true_eq_false, false_and, if_false, true_and, if_true]
      rw [if_pos (by norm_num), if_neg (by omega)]
      simp [minInt]
    · simp only [hc, decide_False, Bool.false_eq_true, false_and, if_false, true_and]
      rw [if_pos (by norm_num), if_neg (by omega)]
      simp [maxInt]

/-- An unsigned digit string parses to its decimal value when that is below
`2^63`, and is out of range otherwise. -/
theorem ParseInt_digits (ds : List Char) (hne : ds ≠ [])
    (hds : ∀ c, c ∈ ds → isDigit c = true) :
    ParseInt ds =
      if decimalValue ds < 2 ^ 63 then ((decimalValue ds : Int), none)
      else (maxInt, some ErrKind.range) := by
  cases ds with
  | nil => exact absurd rfl hne
  | cons c rest =>
    have hc := isDigit_not_sign c (hds c (List.mem_cons_self _ _))
    have hbody : (if c = '+' ∨ c = '-' then rest else c :: rest) = c :: rest := by
      rw [if_neg]; rintro (h | h); exact hc.1 h; exact hc.2 h
    rw [ParseInt_of_digits c rest (c :: rest) hbody hne hds, if_neg hc.2]

/-- A digit string behind a minus sign parses to the negated value when
that is at least `-2^63`, and is out of range otherwise. -/
theorem ParseInt_minus_digits (ds : List Char) (hne : ds ≠ [])
    (hds : ∀ c, c ∈ ds → isDigit c = true) :
    ParseInt ('-' :: ds) =
      if decimalValue ds ≤ 2 ^ 63 then (-(decimalValue ds : Int), none)
      else (minInt, some ErrKind.range) := by
  rw [ParseInt_of_digits '-' ds ds (by simp) hne hds, if_pos rfl]

/-- A digit string behind a plus sign parses like the digit string. -/
theorem ParseInt_plus_digits (ds : List Char) (hne : ds ≠ [])
    (hds : ∀ c, c ∈ ds → isDigit c = true) :
    ParseInt ('+' :: ds) =
      if decimalValue ds < 2 ^ 63 then ((decimalValue ds : Int), none)
      else (maxInt, some ErrKind.range) := by
  rw [ParseInt_of_digits '+' ds ds (by simp) hne hds, if_neg (by decide)]

/-- The conversion fails when the part behind the sign has a byte that is no
digit. -/
theorem ParseInt_body_nondigit (c : Char) (rest : List Char)
    (h : ∃ x, x ∈ (if c = '+' ∨ c = '-' then rest else c :: rest) ∧ isDigit x = false) :
    (ParseInt (c :: rest)).2 ≠ none := by
  rw [ParseInt_cons]
  have hloop := parseUintLoop_nondigit _ 0 h
  have herr := parseUintLoop_err (if c = '+' ∨ c = '-' then rest else c :: rest) 0
  have hne : (if c = '+' ∨ c = '-' then rest else c :: rest) ≠ [] := by
    obtain ⟨x, hx, _⟩ := h
    exact List.ne_nil_of_mem hx
  have hP : ParseUint (if c = '+' ∨ c = '-' then rest else c :: rest) =
      parseUintLoop (if c = '+' ∨ c = '-' then rest else c :: rest) 0 := by
    unfold ParseUint; rw [if_neg hne]
  rw [hP]
  split
  · simp
  · rename_i un e hinv heq
    rw [heq] at hloop herr
    simp only [] at hloop herr
    have he : e = some ErrKind.range := by
      cases e with
      | none => exact absurd rfl hloop
      | some k =>
        cases k with
        | invalid => exact absurd rfl hinv
        | range => rfl
    have hun : un = uintMax := herr.1 he
    subst hun
    simp only [uintMax]
    by_cases hc : c = '-'
    · simp only [hc, decide_True, Bool.true_eq_false, false_and, if_false, true_and]
      rw [if_pos (by norm_num)]; simp
    · simp only [hc, decide_False, true_and]
      rw [if_pos (by norm_num)]; simp

/-- The empty string and a lone sign do not parse. -/
theorem ParseInt_no_digits :
    (ParseInt []).2 ≠ none ∧ (ParseInt ['+']).2 ≠ none ∧ (ParseInt ['-']).2 ≠ none := by
  decide

theorem Atoi_fst (s : String) : (Atoi s).1 = (ParseInt s.data).1 := by
  unfold Atoi
  split <;> rename_i h <;> rw [h]

theorem Atoi_snd_eq_none (s : String) : (Atoi s).2 = none ↔ (ParseInt s.data).2 = none := by
  unfold Atoi
  split <;> rename_i h <;> rw [h] <;> simp

theorem Atoi_of_ParseInt_ok (s : String) (n : Int) (h : ParseInt s.data = (n, none)) :
    Atoi s = (n, none) := by
  unfold Atoi; rw [h]

theorem Atoi_range (s : String) : minInt ≤ (Atoi s).1 ∧ (Atoi s).1 ≤ maxInt := by
  rw [Atoi_fst]; exact ParseInt_range _

/-- A text that fails to parse for another reason than the range
contributes the value 0. -/
theorem Atoi_fst_of_not_outOfRange (t : String) (h : ¬ outOfRange t) :
    (Atoi t).1 = specContribution t := by
  unfold specContribution
  by_cases hn : (Atoi t).2 = none
  · rw [if_pos hn]
  · rw [if_neg hn, Atoi_fst]
    apply ParseInt_invalid
    have hp : (ParseInt t.data).2 ≠ none := fun h0 => hn ((Atoi_snd_eq_none t).2 h0)
    cases hk : (ParseInt t.data).2 with
    | none => exact absurd hk hp
    | some k =>
      cases k with
      | invalid => rfl
      | range => exact absurd hk h

/-! ## Facts about the extraction -/

/-- The summation loop adds the values `strconv.Atoi` returns, in `int`
arithmetic. -/
theorem sumLoop_eq (ts : List String) (m : Int) :
    sumLoop ts (wrapInt m) = wrapInt (m + (ts.map (fun t => (Atoi t).1)).sum) := by
  induction ts generalizing m with
  | nil => simp [sumLoop]
  | cons t ts ih =>
    simp only [sumLoop, List.map_cons, List.sum_cons]
    rw [wrapInt_add_wrapInt, ih, add_assoc]

theorem sumLoop_zero (ts : List String) :
    sumLoop ts 0 = wrapInt ((ts.map (fun t => (Atoi t).1)).sum) := by
  have h := sumLoop_eq ts 0
  have h0 : wrapInt 0 = 0 := by decide
  rw [h0, zero_add] at h
  exact h

theorem pathString_eq_none (xmlRoot : XmlRoot) (h : ∀ n, n ∈ xmlRoot → isTotal n = false) :
    pathString xmlRoot = none := by
  unfold pathString
  rw [List.find?_eq_none.2 (fun n hn => by simp [h n hn])]
  rfl

theorem pathString_append (pre post : List XmlNode) (node : XmlNode)
    (hpre : ∀ m, m ∈ pre → isTotal m = false) (hnode : isTotal node = true) :
    pathString (pre ++ node :: post) = some node.text := by
  unfold pathString
  induction pre with
  | nil => simp [List.find?, hnode]
  | cons p ps ih =>
    have hp : isTotal p = false := hpre p (List.mem_cons_self _ _)
    simp only [List.cons_append, List.find?, hp]
    exact ih (fun m hm => hpre m (List.mem_cons_of_mem _ hm))

/-- Once the request was answered with status 200 and both parsers
succeeded, `getNotifications` returns what the extraction gives. -/
theorem getNotifications_of_page (w : World) (a b c d : String) (resp : Response)
    (root : HtmlNode) (xmlRoot : XmlRoot)
    (hdo : (retryHTTPDo (w.Do (buildRequest a b c d))).last = DoResult.ok resp)
    (hstatus : resp.StatusCode = 200)
    (hparse : w.Parse resp.Body = Except.ok root)
    (hxml : w.ParseHTML root.rendered = Except.ok xmlRoot) :
    getNotifications w a b c d = extract xmlRoot := by
  unfold getNotifications
  simp only [hdo, hstatus, ne_eq, not_true_eq_false, if_false, hparse, hxml]

/-! ## Writing a count and reading it back -/

theorem digitChar_digit (d : Nat) (h : d < 10) :
    isDigit (Nat.digitChar d) = true ∧ (Nat.digitChar d).toNat - 48 = d := by
  interval_cases d <;> decide

theorem decimalFrom_append (a : Nat) (xs ys : List Char) :
    decimalFrom a (xs ++ ys) = decimalFrom (decimalFrom a xs) ys := by
  simp [decimalFrom, List.foldl_append]

/-- The digits `Nat.toDigits` puts in front of `ds` are decimal digits with
the value `n`. -/
theorem toDigitsCore_value (fuel n : Nat) (ds : List Char) (h : n < fuel) :
    ∃ xs, Nat.toDigitsCore 10 fuel n ds = xs ++ ds ∧ xs ≠ [] ∧
      (∀ c, c ∈ xs → isDigit c = true) ∧ decimalFrom 0 xs = n := by
  induction fuel generalizing n ds with
  | zero => omega
  | succ fuel ih =>
    have hd := digitChar_digit (n % 10) (Nat.mod_lt _ (by decide))
    unfold Nat.toDigitsCore
    simp only []
    by_cases h0 : n / 10 = 0
    · rw [if_pos h0]
      refine ⟨[Nat.digitChar (n % 10)], rfl, by simp, ?_, ?_⟩
      · intro c hc
        rw [List.mem_singleton] at hc
        rw [hc]; exact hd.1
      · simp only [decimalFrom, List.foldl_cons, List.foldl_nil, hd.2]
        omega
    · rw [if_neg h0]
      obtain ⟨xs, hxs, _, hdig, hval⟩ :=
        ih (n / 10) (Nat.digitChar (n % 10) :: ds) (by omega)
      refine ⟨xs ++ [Nat.digitChar (n % 10)], by rw [hxs]; simp, by simp, ?_, ?_⟩
      · intro c hc
        rcases List.mem_append.1 hc with hc | hc
        · exact hdig c hc
        · rw [List.mem_singleton] at hc
          rw [hc]; exact hd.1
      · rw [decimalFrom_append, hval]
        simp only [decimalFrom, List.foldl_cons, List.foldl_nil, hd.2]
        omega

theorem toDigits_value (n : Nat) :
    Nat.toDigits 10 n ≠ [] ∧ (∀ c, c ∈ Nat.toDigits 10 n → isDigit c = true) ∧
      decimalValue (Nat.toDigits 10 n) = n := by
  obtain ⟨xs, hxs, hne, hdig, hval⟩ := toDigitsCore_value (n + 1) n [] (by omega)
  have : Nat.toDigits 10 n = xs := by
    unfold Nat.toDigits; rw [hxs, List.append_nil]
  rw [this]
  exact ⟨hne, hdig, hval⟩

/-- What `strconv.Itoa` writes for an `int`, `strconv.Atoi` reads back. -/
theorem Atoi_Itoa (n : Int) (h1 : minInt ≤ n) (h2 : n ≤ maxInt) : Atoi (Itoa n) = (n, none) := by
  obtain ⟨hne, hdig, hval⟩ := toDigits_value n.natAbs
  simp only [minInt, maxInt] at h1 h2
  apply Atoi_of_ParseInt_ok
  unfold Itoa
  by_cases hneg : n < 0
  · rw [if_pos hneg]
    have hdata : ("-" ++ Nat.repr n.natAbs).data = '-' :: Nat.toDigits 10 n.natAbs := by
      rw [String.data_append]; rfl
    rw [hdata, ParseInt_minus_digits _ hne hdig, hval, if_pos (by omega)]
    congr 1
    omega
  · rw [if_neg hneg]
    have hdata : (Nat.repr n.natAbs).data = Nat.toDigits 10 n.natAbs := rfl
    rw [hdata, ParseInt_digits _ hne hdig, hval, if_pos (by omega)]
    congr 1
    omega
/-! ## The retrying transport -/

/-- The loop started at iteration `i` with `k` spare iterations calls the
transport at `i`, `i + 1`, and so on, returns the outcome of its last call,
found every earlier call bad, and stops early only on a good call. -/
theorem retryHTTPDoFrom_spec (attempt : Nat → DoResult) (k i : Nat) :
    i + 1 ≤ (retryHTTPDoFrom attempt k i).attempts ∧
    (retryHTTPDoFrom attempt k i).attempts ≤ i + k + 1 ∧
    (retryHTTPDoFrom attempt k i).last = attempt ((retryHTTPDoFrom attempt k i).attempts - 1) ∧
    (∀ j, i ≤ j → j + 1 < (retryHTTPDoFrom attempt k i).attempts → (attempt j).good = false) ∧
    ((retryHTTPDoFrom attempt k i).attempts < i + k + 1 →
      (attempt ((retryHTTPDoFrom attempt k i).attempts - 1)).good = true) := by
  induction k generalizing i with
  | zero =>
    simp only [retryHTTPDoFrom]
    refine ⟨le_refl _, by omega, by simp, ?_, ?_⟩
    · intro j h1 h2; omega
    · intro h; omega
  | succ k ih =>
    unfold retryHTTPDoFrom
    by_cases hg : (attempt i).good = true
    · rw [if_pos hg]
      refine ⟨le_refl _, by simp only []; omega, by simp, ?_, ?_⟩
      · intro j h1 h2; simp only [] at h2; omega
      · intro _; simpa using hg
    · rw [if_neg hg]
      obtain ⟨h1, h2, h3, h4, h5⟩ := ih (i + 1)
      refine ⟨by omega, by omega, h3, ?_, ?_⟩
      · intro j hij hj
        by_cases hji : j = i
        · subst hji; simpa using hg
        · exact h4 j (by omega) hj
      · intro h; exact h5 (by omega)

/-- C6: for every sequence of attempt outcomes, `retryHTTPDo` calls the
transport between one and five times, one call after another; it returns
exactly the pair produced by its last call; every call before the last one
was bad (transport error or status other than 200); it stops before the
fifth call only on a good call. So it stops at the first good attempt, it
returns the fifth outcome when the first four are bad and the fifth is good,
and it returns the fifth outcome unchanged when all five are bad. -/
theorem retryHTTPDo_spec (attempt : Nat → DoResult) :
    1 ≤ (retryHTTPDo attempt).attempts ∧ (retryHTTPDo attempt).attempts ≤ 5 ∧
    (retryHTTPDo attempt).last = attempt ((retryHTTPDo attempt).attempts - 1) ∧
    (∀ j, j + 1 < (retryHTTPDo attempt).attempts → (attempt j).good = false) ∧
    ((retryHTTPDo attempt).attempts < 5 →
      (attempt ((retryHTTPDo attempt).attempts - 1)).good = true) ∧
    (∀ j, j < 5 → (attempt j).good = true → (∀ i, i < j → (attempt i).good = false) →
      retryHTTPDo attempt = ⟨attempt j, j + 1⟩) ∧
    ((∀ i, i < 4 → (attempt i).good = false) → (attempt 4).good = true →
      retryHTTPDo attempt = ⟨attempt 4, 5⟩ ∧ (retryHTTPDo attempt).last.err = none) ∧
    ((∀ i, i < 5 → (attempt i).good = false) → retryHTTPDo attempt = ⟨attempt 4, 5⟩) := by
  obtain ⟨h1, h2, h3, h4, h5⟩ := retryHTTPDoFrom_spec attempt 4 0
  have key : ∀ j, j < 5 → (∀ i, i < j → (attempt i).good = false) →
      ((attempt j).good = true ∨ j = 4) → retryHTTPDo attempt = ⟨attempt j, j + 1⟩ := by
    intro j hj hbad hlast
    have hatt : (retryHTTPDoFrom attempt 4 0).attempts = j + 1 := by
      rcases Nat.lt_trichotomy (retryHTTPDoFrom attempt 4 0).attempts (j + 1) with hlt | heq | hgt
      · have hgood := h5 (by omega)
        have := hbad ((retryHTTPDoFrom attempt 4 0).attempts - 1) (by omega)
        rw [this] at hgood; exact absurd hgood (by decide)
      · exact heq
      · rcases hlast with hg | h4eq
        · have := h4 j (Nat.zero_le _) hgt
          rw [this] at hg; exact absurd hg (by decide)
        · omega
    show retryHTTPDoFrom attempt 4 0 = ⟨attempt j, j + 1⟩
    have hl := h3
    rw [hatt] at hl
    cases hr : retryHTTPDoFrom attempt 4 0 with
    | mk l a =>
      rw [hr] at hl hatt
      simp only [] at hl hatt
      simp only [Nat.add_sub_cancel] at hl
      rw [hl, hatt]
  refine ⟨h1, h2, h3, fun j hj => h4 j (Nat.zero_le _) hj, h5, ?_, ?_, ?_⟩
  · intro j hj hg hbad
    exact key j hj hbad (Or.inl hg)
  · intro hbad hg
    have hr := key 4 (by omega) hbad (Or.inl hg)
    refine ⟨hr, ?_⟩
    rw [hr]
    show (attempt 4).err = none
    cases h : attempt 4 with
    | ok r => rfl
    | failed r e => rw [h] at hg; simp [DoResult.good] at hg
  · intro hbad
    exact key 4 (by omega) (fun i hi => hbad i (by omega)) (Or.inr rfl)

/-- Witness of C6 on a transport that fails four times and then answers
200: the fifth response comes back, after five calls. -/
theorem retryHTTPDo_spec_witness :
    retryHTTPDo fifthGood = ⟨DoResult.ok ⟨200, "page"⟩, 5⟩ ∧
    (retryHTTPDo fifthGood).last.err = none :=
  (retryHTTPDo_spec fifthGood).2.2.2.2.2.2.1 (by decide) (by decide)


/-! ## The summation path -/

/-- C7, as stated, fails, in two ways. A single marker node whose text is
numeric but one beyond the largest `int` does not parse, so the claim gives
it the contribution 0 and the count 0, while `getNotifications` returns the
largest `int`. And two marker nodes with the texts `9223372036854775807`
and `1` both parse, their sum is `2^63`, while `getNotifications` returns
`-2^63`, because the addition is done in `int`. -/
theorem getNotifications_sum_counterexample :
    (pathString [marker "9223372036854775808"] = none ∧
      (Atoi "9223372036854775808").2 ≠ none ∧
      specSum (pathsIter [marker "9223372036854775808"]) = 0 ∧
      getNotifications (served [marker "9223372036854775808"] (FileState.content "0") accepting)
        "s" "m" "c" "p" = (9223372036854775807, none)) ∧
    (pathString [marker "9223372036854775807", marker "1"] = none ∧
      Atoi "9223372036854775807" = (9223372036854775807, none) ∧
      Atoi "1" = (1, none) ∧
      specSum (pathsIter [marker "9223372036854775807", marker "1"]) = 9223372036854775808 ∧
      getNotifications
        (served [marker "9223372036854775807", marker "1"] (FileState.content "0") accepting)
        "s" "m" "c" "p" = (-9223372036854775808, none)) := by
  decide

/-- C7, amended: when no node matches the `total` query and no marker text
is out of the `int` range, `getNotifications` returns no error and the sum,
in `int` arithmetic (wrapping modulo `2^64`), of the integer value of every
marker text that parses and 0 for every text that does not; with no marker
node at all it returns 0 and no error. -/
theorem getNotifications_sum (w : World) (a b c d : String) (resp : Response)
    (root : HtmlNode) (xmlRoot : XmlRoot)
    (hdo : (retryHTTPDo (w.Do (buildRequest a b c d))).last = DoResult.ok resp)
    (hstatus : resp.StatusCode = 200)
    (hparse : w.Parse resp.Body = Except.ok root)
    (hxml : w.ParseHTML root.rendered = Except.ok xmlRoot)
    (htotal : ∀ n, n ∈ xmlRoot → isTotal n = false)
    (hrange : ∀ t, t ∈ pathsIter xmlRoot → ¬ outOfRange t) :
    getNotifications w a b c d = (wrapInt (specSum (pathsIter xmlRoot)), none) ∧
    (pathsIter xmlRoot = [] → getNotifications w a b c d = (0, none)) := by
  have hget := getNotifications_of_page w a b c d resp root xmlRoot hdo hstatus hparse hxml
  have hex : extract xmlRoot = (sumLoop (pathsIter xmlRoot) 0, none) := by
    unfold extract
    rw [pathString_eq_none xmlRoot htotal]
  have hmap : (pathsIter xmlRoot).map (fun t => (Atoi t).1) =
      (pathsIter xmlRoot).map specContribution :=
    List.map_congr_left (fun t ht => Atoi_fst_of_not_outOfRange t (hrange t ht))
  have hmain : getNotifications w a b c d = (wrapInt (specSum (pathsIter xmlRoot)), none) := by
    rw [hget, hex, sumLoop_zero, hmap]
    rfl
  refine ⟨hmain, ?_⟩
  intro hnil
  rw [hmain, hnil]
  decide

/-- Witness of C7, amended: the marker texts `1`, `x`, `2` give the
count 3. -/
theorem getNotifications_sum_witness :
    getNotifications
      (served [marker "1", marker "x", marker "2"] (FileState.content "0") accepting)
      "s" "m" "c" "p" = (3, none) :=
  ((getNotifications_sum
      (served [marker "1", marker "x", marker "2"] (FileState.content "0") accepting)
      "s" "m" "c" "p" ⟨200, "<html></html>"⟩ ⟨"<html></html>"⟩
      [marker "1", marker "x", marker "2"] (by decide) (by decide) rfl rfl
      (by decide) (by unfold outOfRange; decide)).1).trans (by decide)

/-! ## The `total` path -/

/-- C8: when a node matches the `total` query, the result of
`getNotifications` is what `strconv.Atoi` gives for the text of the first
such node, whatever other nodes stand before or behind it: the integer and
no error when the text parses (the text `3` gives 3), an error when it does
not. No other marker text enters the result. -/
theorem getNotifications_total (w : World) (a b c d : String) (resp : Response)
    (root : HtmlNode) (pre post : List XmlNode) (node : XmlNode)
    (hdo : (retryHTTPDo (w.Do (buildRequest a b c d))).last = DoResult.ok resp)
    (hstatus : resp.StatusCode = 200)
    (hparse : w.Parse resp.Body = Except.ok root)
    (hxml : w.ParseHTML root.rendered = Except.ok (pre ++ node :: post))
    (hpre : ∀ m, m ∈ pre → isTotal m = false)
    (hnode : isTotal node = true) :
    getNotifications w a b c d = Atoi node.text ∧
    (∀ n, Atoi node.text = (n, none) → getNotifications w a b c d = (n, none)) ∧
    ((Atoi node.text).2 ≠ none → (getNotifications w a b c d).2 ≠ none) ∧
    (node.text = "3" → getNotifications w a b c d = (3, none)) := by
  have hget : getNotifications w a b c d = Atoi node.text := by
    rw [getNotifications_of_page w a b c d resp root _ hdo hstatus hparse hxml]
    unfold extract
    rw [pathString_append pre post node hpre hnode]
  refine ⟨hget, ?_, ?_, ?_⟩
  · intro n hn; rw [hget, hn]
  · intro h; rw [hget]; exact h
  · intro h3; rw [hget, h3]; decide

/-- Witness of C8: a `total` node with text `3` between marker nodes with
texts `10` and `20` gives 3. -/
theorem getNotifications_total_witness :
    getNotifications
      (served [marker "10", totalNode "3", marker "20"] (FileState.content "0") accepting)
      "s" "m" "c" "p" = (3, none) :=
  (getNotifications_total
      (served [marker "10", totalNode "3", marker "20"] (FileState.content "0") accepting)
      "s" "m" "c" "p" ⟨200, "<html></html>"⟩ ⟨"<html></html>"⟩
      [marker "10"] [marker "20"] (totalNode "3") (by decide) (by decide) rfl
      rfl (by decide) (by decide)).2.2.2 (by decide)

/-! ## The sign and the range of the count -/

/-- The function `getNotifications` either returns 0 with an error, or what
the extraction gives for some parsed page. -/
theorem getNotifications_cases (w : World) (a b c d : String) :
    (∃ e, getNotifications w a b c d = (0, some e)) ∨
    (∃ xmlRoot, getNotifications w a b c d = extract xmlRoot) := by
  unfold getNotifications
  simp only []
  split
  · exact Or.inl ⟨_, rfl⟩
  · split_ifs
    · exact Or.inl ⟨_, rfl⟩
    · split
      · exact Or.inl ⟨_, rfl⟩
      · split
        · exact Or.inl ⟨_, rfl⟩
        · exact Or.inr ⟨_, rfl⟩

theorem extract_range (xmlRoot : XmlRoot) :
    minInt ≤ (extract xmlRoot).1 ∧ (extract xmlRoot).1 ≤ maxInt := by
  unfold extract
  split
  · exact Atoi_range _
  · simp only [sumLoop_zero]
    exact wrapInt_range _

theorem getNotifications_range (w : World) (a b c d : String) :
    minInt ≤ (getNotifications w a b c d).1 ∧ (getNotifications w a b c d).1 ≤ maxInt := by
  rcases getNotifications_cases w a b c d with ⟨e, he⟩ | ⟨xmlRoot, hx⟩
  · rw [he]
    exact ⟨show minInt ≤ 0 by decide, show (0 : Int) ≤ maxInt by decide⟩
  · rw [hx]; exact extract_range xmlRoot

theorem Atoi_nonneg (t : String) (h : t.data.head? ≠ some '-') : 0 ≤ (Atoi t).1 := by
  rw [Atoi_fst]; exact ParseInt_nonneg _ h

theorem sum_Atoi_nonneg (ts : List String) (h : ∀ t, t ∈ ts → t.data.head? ≠ some '-') :
    0 ≤ (ts.map (fun t => (Atoi t).1)).sum := by
  apply List.sum_nonneg
  intro x hx
  obtain ⟨t, ht, rfl⟩ := List.mem_map.1 hx
  exact Atoi_nonneg t (h t ht)

/-- C9, as stated, fails: a `total` node with text `-5` makes
`getNotifications` return the count -5 and no error. -/
theorem getNotifications_count_counterexample :
    getNotifications (served [totalNode "-5"] (FileState.content "0") accepting)
      "s" "m" "c" "p" = (-5, none) ∧ ¬ (0 : Int) ≤ -5 := by
  decide

/-- C9, amended: when `getNotifications` returns no error, the count lies
in the `int` range from `-2^63` to `2^63 - 1`; it is non-negative when none
of the texts read on the page (the text of the `total` node if there is
one, else the marker texts) begins with a minus sign and the values
`strconv.Atoi` returns for them add up to at most `2^63 - 1`. -/
theorem getNotifications_count (w : World) (a b c d : String) (n : Int)
    (hok : getNotifications w a b c d = (n, none)) :
    (minInt ≤ n ∧ n ≤ maxInt) ∧
    (∀ (resp : Response) (root : HtmlNode) (xmlRoot : XmlRoot),
      (retryHTTPDo (w.Do (buildRequest a b c d))).last = DoResult.ok resp →
      resp.StatusCode = 200 →
      w.Parse resp.Body = Except.ok root →
      w.ParseHTML root.rendered = Except.ok xmlRoot →
      (∀ t, t ∈ consulted xmlRoot → t.data.head? ≠ some '-') →
      ((consulted xmlRoot).map (fun t => (Atoi t).1)).sum ≤ maxInt →
      0 ≤ n) := by
  constructor
  · rcases getNotifications_cases w a b c d with ⟨e, he⟩ | ⟨xmlRoot, hx⟩
    · rw [he] at hok; simp at hok
    · have hr := extract_range xmlRoot
      rw [← hx, hok] at hr
      exact hr
  · intro resp root xmlRoot hdo hstatus hparse hxml hsign hsum
    have hget := getNotifications_of_page w a b c d resp root xmlRoot hdo hstatus hparse hxml
    rw [hok] at hget
    unfold consulted at hsign hsum
    unfold extract at hget
    cases hp : pathString xmlRoot with
    | some t =>
      rw [hp] at hget hsign
      simp only [] at hget hsign
      have h0 := Atoi_nonneg t (hsign t (List.mem_singleton_self t))
      rw [← hget] at h0
      exact h0
    | none =>
      rw [hp] at hget hsign hsum
      simp only [sumLoop_zero] at hget hsign hsum
      have h0 := sum_Atoi_nonneg (pathsIter xmlRoot) hsign
      have hw := wrapInt_of_range _ (by simp only [minInt]; omega) hsum
      have hn : n = wrapInt ((pathsIter xmlRoot).map (fun t => (Atoi t).1)).sum :=
        congrArg Prod.fst hget
      rw [hn, hw]
      exact h0

/-- Witness of C9, amended: the marker texts `1`, `x`, `2` give the count
3 without an error, in range and not negative. -/
theorem getNotifications_count_witness :
    getNotifications
        (served [marker "1", marker "x", marker "2"] (FileState.content "0") accepting)
        "s" "m" "c" "p" = (3, none) ∧
    (minInt ≤ (3 : Int) ∧ (3 : Int) ≤ maxInt) ∧ (0 : Int) ≤ 3 :=
  ⟨by decide,
   (getNotifications_count
      (served [marker "1", marker "x", marker "2"] (FileState.content "0") accepting)
      "s" "m" "c" "p" 3 (by decide)).1,
   (getNotifications_count
      (served [marker "1", marker "x", marker "2"] (FileState.content "0") accepting)
      "s" "m" "c" "p" 3 (by decide)).2 ⟨200, "<html></html>"⟩ ⟨"<html></html>"⟩
      [marker "1", marker "x", marker "2"] (by decide) (by decide) rfl rfl (by decide)
      (by decide)⟩

/-! ## The prior count -/

theorem lastNotifications_content (s : String) :
    lastNotifications (FileState.content s) = if (Atoi s).2 = none then (Atoi s).1 else 0 := by
  unfold lastNotifications ReadFile
  simp only []
  by_cases h : (Atoi s).2 = none
  · rw [if_pos h, if_neg (by simp [h])]
  · rw [if_neg h, if_pos (Or.inr h)]

theorem lastNotifications_unreadable (data : String) (err : GoError) :
    lastNotifications (FileState.unreadable data err) = 0 := by
  unfold lastNotifications ReadFile
  simp

theorem lastNotifications_of_ParseInt (s : String) (v : Int) (k : Option ErrKind)
    (h : ParseInt s.data = (v, k)) :
    lastNotifications (FileState.content s) = if k = none then v else 0 := by
  rw [lastNotifications_content]
  have h1 : (Atoi s).1 = v := by rw [Atoi_fst, h]
  have h2 : (Atoi s).2 = none ↔ k = none := by rw [Atoi_snd_eq_none, h]
  by_cases hk : k = none
  · rw [if_pos (h2.2 hk), if_pos hk, h1]
  · rw [if_neg (fun hn => hk (h2.1 hn)), if_neg hk]

theorem lastNotifications_of_error (s : String) (h : (ParseInt s.data).2 ≠ none) :
    lastNotifications (FileState.content s) = 0 := by
  rw [lastNotifications_content, if_neg (fun hn => h ((Atoi_snd_eq_none s).1 hn))]

/-! ## The run after the fetch -/

/-- The three ways lines 80 to 100 can end. -/
theorem compareAndNotify_cases (w : World) (notifyEmail : String) (e : emailer) (N : Int)
    (sofar : List Event) :
    ((N ≤ lastNotifications w.file ∨ N ≤ 0) ∧
      compareAndNotify w notifyEmail e N sofar =
        { trace := sofar ++ [Event.readFile, Event.writeFile (Itoa N)]
          file := WriteFile w (Itoa N), exit := 0 }) ∨
    ((N > lastNotifications w.file ∧ N > 0) ∧
      e.email w notifyEmail "ASOIAF notifications" (notifyBody N) = none ∧
      compareAndNotify w notifyEmail e N sofar =
        { trace := sofar ++ [Event.readFile, Event.writeFile (Itoa N)] ++
            [Event.email notifyEmail "ASOIAF notifications" (notifyBody N)]
          file := WriteFile w (Itoa N), exit := 0 }) ∨
    ((N > lastNotifications w.file ∧ N > 0) ∧
      e.email w notifyEmail "ASOIAF notifications" (notifyBody N) ≠ none ∧
      compareAndNotify w notifyEmail e N sofar =
        { trace := sofar ++ [Event.readFile, Event.writeFile (Itoa N)] ++
            [Event.email notifyEmail "ASOIAF notifications" (notifyBody N),
              Event.fatal (fatalText w.Quote (ReadFile w.file).2)]
          file := WriteFile w (Itoa N), exit := 1 }) := by
  unfold compareAndNotify
  simp only []
  by_cases h1 : N ≤ lastNotifications w.file
  · left
    rw [if_pos h1]
    exact ⟨Or.inl h1, rfl⟩
  · rw [if_neg h1]
    by_cases h2 : N > 0
    · rw [if_pos h2]
      right
      cases hm : e.email w notifyEmail "ASOIAF notifications" (notifyBody N) with
      | none => left; exact ⟨⟨by omega, h2⟩, rfl, rfl⟩
      | some er => right; exact ⟨⟨by omega, h2⟩, by simp, rfl⟩
    · rw [if_neg h2]
      left
      exact ⟨Or.inr (by omega), rfl⟩

/-- The two ways `checkAndNotify` can start. -/
theorem checkAndNotify_cases (w : World) (a b c d notifyEmail : String) (e : emailer) :
    (∃ er, (getNotifications w a b c d).2 = some er ∧
      e.email w notifyEmail "Error scraping notifications" (er.Error w.Quote) ≠ none ∧
      checkAndNotify w a b c d notifyEmail e =
        { trace := [Event.email notifyEmail "Error scraping notifications" (er.Error w.Quote),
            Event.fatal (er.Error w.Quote)]
          file := w.file, exit := 1 }) ∨
    (∃ er, (getNotifications w a b c d).2 = some er ∧
      e.email w notifyEmail "Error scraping notifications" (er.Error w.Quote) = none ∧
      checkAndNotify w a b c d notifyEmail e =
        compareAndNotify w notifyEmail e (getNotifications w a b c d).1
          [Event.email notifyEmail "Error scraping notifications" (er.Error w.Quote)]) ∨
    ((getNotifications w a b c d).2 = none ∧
      checkAndNotify w a b c d notifyEmail e =
        compareAndNotify w notifyEmail e (getNotifications w a b c d).1 []) := by
  unfold checkAndNotify
  cases hg : getNotifications w a b c d with
  | mk N err =>
    cases err with
    | none => right; right; exact ⟨rfl, rfl⟩
    | some er =>
      simp only []
      cases hm : e.email w notifyEmail "Error scraping notifications" (er.Error w.Quote) with
      | none => right; left; exact ⟨er, rfl, hm, rfl⟩
      | some x => left; exact ⟨er, rfl, by rw [hm]; simp, rfl⟩

/-- C1: after a successful fetch that returned the count `N`, with `P` the
prior count loaded from the state file, the run attempts a mail with the
subject `ASOIAF notifications` if and only if `N > P` and `N > 0`; the mail
it then attempts goes to the notify address and carries the count `N`. -/
theorem checkAndNotify_notifies_iff (w : World) (a b c d notifyEmail : String) (e : emailer)
    (N : Int) (hfetch : getNotifications w a b c d = (N, none)) :
    ((∃ rcpt body, Event.email rcpt "ASOIAF notifications" body ∈
        (checkAndNotify w a b c d notifyEmail e).trace) ↔
      (N > lastNotifications w.file ∧ N > 0)) ∧
    (N > lastNotifications w.file ∧ N > 0 →
      Event.email notifyEmail "ASOIAF notifications" (notifyBody N) ∈
        (checkAndNotify w a b c d notifyEmail e).trace) := by
  have hN : (getNotifications w a b c d).1 = N := by rw [hfetch]
  have hrun : checkAndNotify w a b c d notifyEmail e = compareAndNotify w notifyEmail e N [] := by
    rcases checkAndNotify_cases w a b c d notifyEmail e with
      ⟨er, h, _⟩ | ⟨er, h, _⟩ | ⟨_, h⟩
    · rw [hfetch] at h; simp at h
    · rw [hfetch] at h; simp at h
    · rw [h, hN]
  rw [hrun]
  rcases compareAndNotify_cases w notifyEmail e N [] with ⟨hc, h⟩ | ⟨hc, _, h⟩ | ⟨hc, _, h⟩
  · rw [h]
    have hno : ¬ (N > lastNotifications w.file ∧ N > 0) := by omega
    simp [hno]
  · rw [h]
    refine ⟨⟨fun _ => hc, fun _ => ⟨notifyEmail, notifyBody N, by simp⟩⟩, fun _ => by simp⟩
  · rw [h]
    refine ⟨⟨fun _ => hc, fun _ => ⟨notifyEmail, notifyBody N, by simp⟩⟩, fun _ => by simp⟩

/-- Witness of C1: the page shows 3, the state file holds 2, the mail is
attempted. -/
theorem checkAndNotify_notifies_iff_witness :
    Event.email "me@example.org" "ASOIAF notifications" (notifyBody 3) ∈
      (checkAndNotify (served [totalNode "3"] (FileState.content "2") accepting)
        "s" "m" "c" "p" "me@example.org" ⟨"bot@example.org", "smtp.example.org", "pw", 0⟩).trace :=
  (checkAndNotify_notifies_iff (served [totalNode "3"] (FileState.content "2") accepting)
    "s" "m" "c" "p" "me@example.org" ⟨"bot@example.org", "smtp.example.org", "pw", 0⟩ 3
    (by decide)).2 (by decide)

/-- C2: in every run that gets past the fetch step (the fetch succeeded, or
the error mail was accepted) and whose file write succeeds, the state file
afterwards holds the decimal text of the count `N` of that run, whatever it
held before and whatever becomes of the notification mail; the write is
recorded right after the read of the file and before any mail with the
subject `ASOIAF notifications`. A later load of that file gives `N` back as
the prior count. -/
theorem checkAndNotify_persists (w : World) (a b c d notifyEmail : String) (e : emailer)
    (N : Int) (err : Option GoError)
    (hfetch : getNotifications w a b c d = (N, err))
    (hpast : ∀ er, err = some er →
      e.email w notifyEmail "Error scraping notifications" (er.Error w.Quote) = none)
    (hwrite : w.writeFailure = none) :
    (checkAndNotify w a b c d notifyEmail e).file = FileState.content (Itoa N) ∧
    (∃ pre post, (checkAndNotify w a b c d notifyEmail e).trace =
        pre ++ [Event.readFile, Event.writeFile (Itoa N)] ++ post ∧
      (∀ ev, ev ∈ pre → ∀ rcpt body, ev ≠ Event.email rcpt "ASOIAF notifications" body)) ∧
    lastNotifications (checkAndNotify w a b c d notifyEmail e).file = N := by
  have hN : (getNotifications w a b c d).1 = N := by rw [hfetch]
  have hback : lastNotifications (FileState.content (Itoa N)) = N := by
    have hr := getNotifications_range w a b c d
    rw [hN] at hr
    rw [lastNotifications_content, Atoi_Itoa N hr.1 hr.2]
    simp
  have hW : WriteFile w (Itoa N) = FileState.content (Itoa N) := by
    unfold WriteFile; rw [hwrite]
  have hrun : ∃ sofar, checkAndNotify w a b c d notifyEmail e =
        compareAndNotify w notifyEmail e N sofar ∧
      (∀ ev, ev ∈ sofar → ∀ rcpt body, ev ≠ Event.email rcpt "ASOIAF notifications" body) := by
    rcases checkAndNotify_cases w a b c d notifyEmail e with
      ⟨er, h, hm, _⟩ | ⟨er, _, _, h⟩ | ⟨_, h⟩
    · rw [hfetch] at h
      exact absurd (hpast er h) hm
    · refine ⟨_, by rw [h, hN], ?_⟩
      intro ev hev rcpt body
      rw [List.mem_singleton] at hev
      rw [hev]
      intro heq
      injection heq with _ hs _
      revert hs
      decide
    · exact ⟨[], by rw [h, hN], by simp⟩
  obtain ⟨sofar, hrun, hsofar⟩ := hrun
  rw [hrun]
  rcases compareAndNotify_cases w notifyEmail e N sofar with ⟨_, h⟩ | ⟨_, _, h⟩ | ⟨_, _, h⟩
  · rw [h]
    exact ⟨hW, ⟨sofar, [], by simp, hsofar⟩, by rw [hW]; exact hback⟩
  · rw [h]
    exact ⟨hW, ⟨sofar, _, rfl, hsofar⟩, by rw [hW]; exact hback⟩
  · rw [h]
    exact ⟨hW, ⟨sofar, _, rfl, hsofar⟩, by rw [hW]; exact hback⟩

/-- Witness of C2: the page shows 3, the state file held 7, no mail is due,
and the file holds `3` afterwards. -/
theorem checkAndNotify_persists_witness :
    (checkAndNotify (served [totalNode "3"] (FileState.content "7") accepting)
        "s" "m" "c" "p" "me@example.org" ⟨"bot@example.org", "smtp.example.org", "pw", 0⟩).file
      = FileState.content "3" :=
  (checkAndNotify_persists (served [totalNode "3"] (FileState.content "7") accepting)
    "s" "m" "c" "p" "me@example.org" ⟨"bot@example.org", "smtp.example.org", "pw", 0⟩ 3 none
    (by decide) (by intro er h; exact absurd h (by simp)) rfl).1

/-- C5, as stated, fails: the fetch succeeds with the count 1, the state
file holds 0, the notification mail is refused, and the run ends in
`log.Fatal` with exit status 1. -/
theorem checkAndNotify_exit_counterexample :
    (getNotifications (served [totalNode "1"] (FileState.content "0") refusing)
      "s" "m" "c" "p").2 = none ∧
    (checkAndNotify (served [totalNode "1"] (FileState.content "0") refusing)
      "s" "m" "c" "p" "me@example.org" ⟨"bot@example.org", "smtp.example.org", "pw", 0⟩).exit = 1 ∧
    Event.fatal "<nil>" ∈
      (checkAndNotify (served [totalNode "1"] (FileState.content "0") refusing)
        "s" "m" "c" "p" "me@example.org" ⟨"bot@example.org", "smtp.example.org", "pw", 0⟩).trace := by
  decide

/-- C5, amended: a run of `checkAndNotify` ends with exit status 0 or 1, and
it ends in `log.Fatal` (status 1) exactly in two cases: the fetch returned
an error and the error mail was refused, or the count exceeds the prior
count and 0 and the notification mail was refused. Every other run exits
0. -/
theorem checkAndNotify_exit (w : World) (a b c d notifyEmail : String) (e : emailer) :
    ((checkAndNotify w a b c d notifyEmail e).exit = 0 ∨
      (checkAndNotify w a b c d notifyEmail e).exit = 1) ∧
    ((checkAndNotify w a b c d notifyEmail e).exit = 1 ↔
      ((∃ er, (getNotifications w a b c d).2 = some er ∧
          e.email w notifyEmail "Error scraping notifications" (er.Error w.Quote) ≠ none) ∨
        ((getNotifications w a b c d).1 > lastNotifications w.file ∧
          (getNotifications w a b c d).1 > 0 ∧
          e.email w notifyEmail "ASOIAF notifications"
            (notifyBody (getNotifications w a b c d).1) ≠ none))) := by
  have hcmp : ∀ sofar,
      ((compareAndNotify w notifyEmail e (getNotifications w a b c d).1 sofar).exit = 0 ∨
        (compareAndNotify w notifyEmail e (getNotifications w a b c d).1 sofar).exit = 1) ∧
      ((compareAndNotify w notifyEmail e (getNotifications w a b c d).1 sofar).exit = 1 ↔
        ((getNotifications w a b c d).1 > lastNotifications w.file ∧
          (getNotifications w a b c d).1 > 0 ∧
          e.email w notifyEmail "ASOIAF notifications"
            (notifyBody (getNotifications w a b c d).1) ≠ none)) := by
    intro sofar
    rcases compareAndNotify_cases w notifyEmail e (getNotifications w a b c d).1 sofar with
      ⟨hc, h⟩ | ⟨hc, hm, h⟩ | ⟨hc, hm, h⟩
    · rw [h]
      refine ⟨Or.inl rfl, ⟨fun h1 => absurd (show (0 : Nat) = 1 from h1) (by decide), fun h1 => ?_⟩⟩
      omega
    · rw [h]
      exact ⟨Or.inl rfl, ⟨fun h1 => absurd (show (0 : Nat) = 1 from h1) (by decide),
        fun h1 => absurd hm h1.2.2⟩⟩
    · rw [h]
      exact ⟨Or.inr rfl, ⟨fun _ => ⟨hc.1, hc.2, hm⟩, fun _ => rfl⟩⟩
  rcases checkAndNotify_cases w a b c d notifyEmail e with
    ⟨er, hg, hm, h⟩ | ⟨er, hg, hm, h⟩ | ⟨hg, h⟩
  · rw [h]
    exact ⟨Or.inr rfl, ⟨fun _ => Or.inl ⟨er, hg, hm⟩, fun _ => rfl⟩⟩
  · rw [h]
    refine ⟨(hcmp _).1, ⟨fun h1 => Or.inr ((hcmp _).2.1 h1), fun h1 => ?_⟩⟩
    rcases h1 with ⟨er2, hg2, hm2⟩ | h1
    · rw [hg] at hg2
      injection hg2 with hg2
      subst hg2
      exact absurd hm hm2
    · exact (hcmp _).2.2 h1
  · rw [h]
    refine ⟨(hcmp _).1, ⟨fun h1 => Or.inr ((hcmp _).2.1 h1), fun h1 => ?_⟩⟩
    rcases h1 with ⟨er2, hg2, _⟩ | h1
    · rw [hg] at hg2; simp at hg2
    · exact (hcmp _).2.2 h1

/-! ## Loading the prior count -/

/-- C3: the prior count is the integer the whole content of the state file
parses to, and 0 in every other case; loading never stops the run. In
detail: a readable file whose content `strconv.Atoi` accepts gives that
integer; a content it rejects, or an unreadable or missing file, gives 0.
In decimal terms, a string of digits gives its value when that is below
`2^63` and 0 when it is out of range, likewise behind a plus sign, and
behind a minus sign it gives the negated value down to `-2^63` and 0 beyond;
the empty content, a lone sign, and any content with a byte that is no digit
(other than one leading sign), such as trailing white space or a newline,
give 0. After a successful fetch and a failed load the run still writes the
file, and it ends in `log.Fatal` only when the notification mail is
refused. -/
theorem lastNotifications_load (fs : FileState) :
    (∀ s n, fs = FileState.content s → Atoi s = (n, none) → lastNotifications fs = n) ∧
    (∀ s, fs = FileState.content s → (Atoi s).2 ≠ none → lastNotifications fs = 0) ∧
    (∀ data err, fs = FileState.unreadable data err → lastNotifications fs = 0) ∧
    (∀ ds, fs = FileState.content ⟨ds⟩ → ds ≠ [] → (∀ c, c ∈ ds → isDigit c = true) →
      lastNotifications fs = if decimalValue ds < 2 ^ 63 then (decimalValue ds : Int) else 0) ∧
    (∀ ds, fs = FileState.content ⟨'+' :: ds⟩ → ds ≠ [] → (∀ c, c ∈ ds → isDigit c = true) →
      lastNotifications fs = if decimalValue ds < 2 ^ 63 then (decimalValue ds : Int) else 0) ∧
    (∀ ds, fs = FileState.content ⟨'-' :: ds⟩ → ds ≠ [] → (∀ c, c ∈ ds → isDigit c = true) →
      lastNotifications fs = if decimalValue ds ≤ 2 ^ 63 then -(decimalValue ds : Int) else 0) ∧
    (fs = FileState.content "" ∨ fs = FileState.content "+" ∨ fs = FileState.content "-" →
      lastNotifications fs = 0) ∧
    (∀ c rest, fs = FileState.content ⟨c :: rest⟩ → (∃ x, x ∈ rest ∧ isDigit x = false) →
      lastNotifications fs = 0) ∧
    (∀ c rest, fs = FileState.content ⟨c :: rest⟩ → isDigit c = false → c ≠ '+' → c ≠ '-' →
      lastNotifications fs = 0) ∧
    (∀ (w : World) (a b c d notifyEmail : String) (e : emailer) (N : Int),
      w.file = fs → getNotifications w a b c d = (N, none) →
      ((ReadFile fs).2 ≠ none ∨ (Atoi (ReadFile fs).1).2 ≠ none) →
      Event.writeFile (Itoa N) ∈ (checkAndNotify w a b c d notifyEmail e).trace ∧
      ((checkAndNotify w a b c d notifyEmail e).exit = 1 →
        N > 0 ∧ e.email w notifyEmail "ASOIAF notifications" (notifyBody N) ≠ none)) := by
  refine ⟨?_, ?_, ?_, ?_, ?_, ?_, ?_, ?_, ?_, ?_⟩
  · intro s n hfs h
    rw [hfs, lastNotifications_content, h]
    simp
  · intro s hfs h
    rw [hfs, lastNotifications_content, if_neg h]
  · intro data err hfs
    rw [hfs, lastNotifications_unreadable]
  · intro ds hfs hne hds
    rw [hfs]
    by_cases hv : decimalValue ds < 2 ^ 63
    · rw [lastNotifications_of_ParseInt ⟨ds⟩ _ _
        ((ParseInt_digits ds hne hds).trans (if_pos hv)), if_pos hv]
      simp
    · rw [lastNotifications_of_ParseInt ⟨ds⟩ _ _
        ((ParseInt_digits ds hne hds).trans (if_neg hv)), if_neg hv]
      simp
  · intro ds hfs hne hds
    rw [hfs]
    by_cases hv : decimalValue ds < 2 ^ 63
    · rw [lastNotifications_of_ParseInt ⟨'+' :: ds⟩ _ _
        ((ParseInt_plus_digits ds hne hds).trans (if_pos hv)), if_pos hv]
      simp
    · rw [lastNotifications_of_ParseInt ⟨'+' :: ds⟩ _ _
        ((ParseInt_plus_digits ds hne hds).trans (if_neg hv)), if_neg hv]
      simp
  · intro ds hfs hne hds
    rw [hfs]
    by_cases hv : decimalValue ds ≤ 2 ^ 63
    · rw [lastNotifications_of_ParseInt ⟨'-' :: ds⟩ _ _
        ((ParseInt_minus_digits ds hne hds).trans (if_pos hv)), if_pos hv]
      simp
    · rw [lastNotifications_of_ParseInt ⟨'-' :: ds⟩ _ _
        ((ParseInt_minus_digits ds hne hds).trans (if_neg hv)), if_neg hv]
      simp
  · rintro (h | h | h) <;> rw [h] <;> decide
  · intro c rest hfs hx
    rw [hfs]
    apply lastNotifications_of_error
    apply ParseInt_body_nondigit
    obtain ⟨x, hx, hxd⟩ := hx
    refine ⟨x, ?_, hxd⟩
    split_ifs
    · exact hx
    · exact List.mem_cons_of_mem _ hx
  · intro c rest hfs hc hplus hminus
    rw [hfs]
    apply lastNotifications_of_error
    apply ParseInt_body_nondigit
    refine ⟨c, ?_, hc⟩
    rw [if_neg (by rintro (h | h); exact hplus h; exact hminus h)]
    exact List.mem_cons_self _ _
  · intro w a b c d notifyEmail e N _ hfetch _
    have hN : (getNotifications w a b c d).1 = N := by rw [hfetch]
    have hrun : checkAndNotify w a b c d notifyEmail e =
        compareAndNotify w notifyEmail e N [] := by
      rcases checkAndNotify_cases w a b c d notifyEmail e with
        ⟨er, h, _⟩ | ⟨er, h, _⟩ | ⟨_, h⟩
      · rw [hfetch] at h; simp at h
      · rw [hfetch] at h; simp at h
      · rw [h, hN]
    rw [hrun]
    rcases compareAndNotify_cases w notifyEmail e N [] with ⟨_, h⟩ | ⟨_, _, h⟩ | ⟨hc, hm, h⟩
    · rw [h]
      exact ⟨by simp, fun h1 => absurd (show (0 : Nat) = 1 from h1) (by decide)⟩
    · rw [h]
      exact ⟨by simp, fun h1 => absurd (show (0 : Nat) = 1 from h1) (by decide)⟩
    · rw [h]
      exact ⟨by simp, fun _ => ⟨hc.2, hm⟩⟩

/-- Witness of C3: a state file holding `3` followed by a newline loads as
the prior count 0. -/
theorem lastNotifications_load_witness :
    lastNotifications (FileState.content "3\n") = 0 :=
  (lastNotifications_load (FileState.content "3\n")).2.2.2.2.2.2.2.1 (Char.ofNat 51)
    [Char.ofNat 10] (by decide) ⟨Char.ofNat 10, by decide, by decide⟩

/-! ## A failed fetch -/

/-- The count `getNotifications` returns next to an error is 0, except when
`strconv.Atoi` reports `ErrRange` for the text of the `total` node: then it
is the nearest bound of `int`. -/
theorem getNotifications_error_value (w : World) (a b c d : String) (v : Int) (er : GoError)
    (h : getNotifications w a b c d = (v, some er)) :
    v = 0 ∨ ((v = maxInt ∨ v = minInt) ∧
      ∃ t, outOfRange t ∧ er = GoError.num ⟨"Atoi", t, ErrKind.range⟩) := by
  rcases getNotifications_cases w a b c d with ⟨e, he⟩ | ⟨xmlRoot, hx⟩
  · rw [he] at h
    left
    exact (congrArg Prod.fst h).symm
  · rw [hx] at h
    unfold extract at h
    split at h
    · rename_i t _
      unfold Atoi at h
      split at h
      · simp at h
      · rename_i v0 k hk
        have hv : v0 = v := congrArg Prod.fst h
        have he : some (GoError.num ⟨"Atoi", t, k⟩) = some er := congrArg Prod.snd h
        injection he with he
        subst hv
        cases k with
        | invalid =>
          left
          have := ParseInt_invalid t.data (by rw [hk])
          rw [hk] at this
          exact this
        | range =>
          right
          refine ⟨?_, t, by unfold outOfRange; rw [hk], he.symm⟩
          have := ParseInt_range_value t.data (by rw [hk])
          rw [hk] at this
          exact this
    · simp at h

/-- What holds of a run whose fetch failed: the first event is the one error
mail, with the error text as body; when it is refused the run ends in
`log.Fatal` at once, the state file neither read nor written; when it is
accepted and the count returned with the error is 0, the run goes on, writes
`0`, attempts no notification mail and exits 0. -/
theorem checkAndNotify_fetch_error (w : World) (a b c d notifyEmail : String) (e : emailer)
    (v : Int) (er : GoError) (hfetch : getNotifications w a b c d = (v, some er)) :
    (e.email w notifyEmail "Error scraping notifications" (er.Error w.Quote) ≠ none →
      checkAndNotify w a b c d notifyEmail e =
        { trace := [Event.email notifyEmail "Error scraping notifications" (er.Error w.Quote),
            Event.fatal (er.Error w.Quote)]
          file := w.file, exit := 1 }) ∧
    (e.email w notifyEmail "Error scraping notifications" (er.Error w.Quote) = none → v = 0 →
      checkAndNotify w a b c d notifyEmail e =
        { trace := [Event.email notifyEmail "Error scraping notifications" (er.Error w.Quote),
            Event.readFile, Event.writeFile "0"]
          file := WriteFile w "0", exit := 0 }) := by
  have hv : (getNotifications w a b c d).1 = v := by rw [hfetch]
  have he : (getNotifications w a b c d).2 = some er := by rw [hfetch]
  constructor
  · intro hm
    rcases checkAndNotify_cases w a b c d notifyEmail e with
      ⟨er2, h2, _, h⟩ | ⟨er2, h2, hm2, _⟩ | ⟨h2, _⟩
    · rw [he] at h2; injection h2 with h2; subst h2; exact h
    · rw [he] at h2; injection h2 with h2; subst h2; exact absurd hm2 hm
    · rw [he] at h2; simp at h2
  · intro hm h0
    subst h0
    rcases checkAndNotify_cases w a b c d notifyEmail e with
      ⟨er2, h2, hm2, _⟩ | ⟨er2, h2, _, h⟩ | ⟨h2, _⟩
    · rw [he] at h2; injection h2 with h2; subst h2; exact absurd hm hm2
    · rw [he] at h2; injection h2 with h2; subst h2
      rw [h, hv]
      rcases compareAndNotify_cases w notifyEmail e 0
          [Event.email notifyEmail "Error scraping notifications" (er.Error w.Quote)] with
        ⟨_, hc⟩ | ⟨hc, _⟩ | ⟨hc, _⟩
      · rw [hc]; rfl
      · exact absurd hc.2 (by decide)
      · exact absurd hc.2 (by decide)
    · rw [he] at h2; simp at h2

/-- C4 on the code: the `total` node shows `9223372036854775808`, so
`strconv.Atoi` reports `ErrRange` and hands back the largest `int` with it.
The error mail is accepted, and the run goes on with that count instead of
0: it writes `9223372036854775807` to the state file and attempts the
notification mail. -/
theorem checkAndNotify_range_error_run :
    getNotifications overflowWorld "s" "m" "c" "p" =
      (9223372036854775807,
        some (GoError.num ⟨"Atoi", "9223372036854775808", ErrKind.range⟩)) ∧
    checkAndNotify overflowWorld "s" "m" "c" "p" "me@example.org" exampleEmailer =
      { trace :=
          [Event.email "me@example.org" "Error scraping notifications"
            "strconv.Atoi: parsing \"9223372036854775808\": value out of range",
           Event.readFile,
           Event.writeFile "9223372036854775807",
           Event.email "me@example.org" "ASOIAF notifications"
            "You have 9223372036854775807 new notification(s)! Go check https://asoiaf.westeros.org/"]
        file := FileState.content "9223372036854775807"
        exit := 0 } := by
  decide

/-! ## The required flags -/

/-- What `main` does, by the first required flag that is empty: it ends in
`log.Fatal` before anything else happens, with a message that names the flag
(as `ipsessionfront` when the flag is `ipssessionfront`); with no flag empty
it runs `checkAndNotify` once. -/
theorem main_eq (w : World) (f : Flags) :
    main w f =
      match firstMissing (registeredNames.zip f.required) with
      | some name =>
        fatalRun w ("Need to specify --" ++
          (if name = "ipssessionfront" then "ipsessionfront" else name))
      | none =>
        checkAndNotify w f.ipssessionfront f.memberid f.cfduid f.passhash f.notifyEmail
          { sender := f.smtpUser, smtpServer := f.smtpServer, smtpPassword := f.smtpPassword,
            smtpPort := 0 } := by
  unfold main
  simp only [registeredNames, Flags.required, List.zip_cons_cons, List.zip_nil_right,
    firstMissing]
  split_ifs <;> rfl

/-- C10 on the code: with only `-ipssessionfront` empty, `main` ends in
`log.Fatal` with a message that names `--ipsessionfront`, which is no
registered flag; the registered name is `ipssessionfront`. -/
theorem main_flag_name_run :
    flagsWithoutSession.ipssessionfront = "" ∧
    main overflowWorld flagsWithoutSession =
      fatalRun overflowWorld "Need to specify --ipsessionfront" ∧
    "ipsessionfront" ∉ registeredNames ∧
    "ipssessionfront" ∈ registeredNames := by
  decide

end Asoiafnotif
